import Mathlib

/-!
Shallow embedding of the structured-logging facade: a context-propagation
layer (logger handle + accumulated tag list carried by an immutable context),
a global logger registry, a logger factory, a severity-gate core wrapper,
and live reconfiguration.  Go slices, `interface{}` values and zap records
are modelled explicitly; machine behaviour (slice capacity reuse, lock
acquisition) is modelled where a claim depends on it.
-/

namespace LogFacade

/-- Log severities, ordered as in zapcore (`Debug = -1 < Info = 0 < ... < Fatal = 5`). -/
inductive Level where
  | debug
  | info
  | warn
  | error
  | dpanic
  | panicLvl
  | fatal
deriving DecidableEq

/-- Numeric value of a severity, as in zapcore. -/
def Level.toInt : Level → Int
  | .debug => -1
  | .info => 0
  | .warn => 1
  | .error => 2
  | .dpanic => 3
  | .panicLvl => 4
  | .fatal => 5

/-- zapcore `(l Level).Enabled(lvl)` returns `lvl >= l`: an entry at level `e`
passes a gate at level `gate` iff `e` is at or above `gate`. -/
def levelEnabled (gate e : Level) : Bool :=
  gate.toInt ≤ e.toInt

/-- Lowercase level encoder (`zapcore.LowercaseLevelEncoder`). -/
def levelString : Level → String
  | .debug => "debug"
  | .info => "info"
  | .warn => "warn"
  | .error => "error"
  | .dpanic => "dpanic"
  | .panicLvl => "panic"
  | .fatal => "fatal"

/-- A Go `interface{}` value, restricted to the dynamic types the claims
exercise: strings and integers. -/
inductive GoVal where
  | str (s : String)
  | int (n : Int)
deriving DecidableEq

/-- Default `%v` formatting of a value (`fmt` package). -/
def govalToString : GoVal → String
  | .str s => s
  | .int n => toString n

/-- True iff the dynamic type of the value is `string`. -/
def GoVal.isStr : GoVal → Bool
  | .str _ => true
  | _ => false

/-- The dynamic type name printed by the `%T` verb. -/
def goTypeName : GoVal → String
  | .str _ => "string"
  | .int _ => "int"

/-- `fmt.Sprint`: operands in default format, a space added between two
operands when neither is a string. -/
def goSprint : List GoVal → String
  | [] => ""
  | [x] => govalToString x
  | x :: y :: rest =>
    govalToString x ++ (if x.isStr || y.isStr then "" else " ") ++ goSprint (y :: rest)

/-- Character-level worker for `fmt.Sprintf`, covering the verbs used by the
repository (`%v`, `%s`, `%d`, `%T`, `%%`). -/
def sprintfAux : List Char → List GoVal → String
  | [], _ => ""
  | '%' :: 'v' :: rest, a :: as => govalToString a ++ sprintfAux rest as
  | '%' :: 's' :: rest, a :: as => govalToString a ++ sprintfAux rest as
  | '%' :: 'd' :: rest, a :: as => govalToString a ++ sprintfAux rest as
  | '%' :: 'T' :: rest, a :: as => goTypeName a ++ sprintfAux rest as
  | '%' :: '%' :: rest, as => "%" ++ sprintfAux rest as
  | c :: rest, as => String.singleton c ++ sprintfAux rest as

/-- `fmt.Sprintf` for the format strings appearing in the repository. -/
def goSprintf (f : String) (args : List GoVal) : String :=
  sprintfAux f.data args

/-- `strings.ReplaceAll(t, " ", "")`: every space character of the string is
removed. -/
def removeSpaces (t : String) : String :=
  String.mk (t.data.filter (fun c => c ≠ ' '))

/-- The fixed structured-field name under which rendered tags are emitted. -/
def tagsName : String := "hashtags"

/-- `prepareTags`: a `strings.Builder` accumulates, for each tag in order,
`'#'`, the tag with spaces removed, and one `' '`. -/
def prepareTags (tags : List String) : String :=
  tags.foldl (fun b t => b ++ "#" ++ removeSpaces t ++ " ") ""

/-- The `Config` settings record (field defaults are in `defaultCfg`). -/
structure Config where
  LogLevel : String
  MessageKey : String
  LevelKey : String
  TimeKey : String
  AppName : String
  Host : String
  Version : String
  DevMode : Bool
deriving DecidableEq

/-- The package-level `defaultCfg` literal. -/
def defaultCfg : Config :=
  { LogLevel := "info", MessageKey := "message", LevelKey := "severity"
    TimeKey := "timestamp", AppName := "app", Host := "localhost"
    Version := "0.0.0", DevMode := false }

/-- `getZapFields`: base fields attached to a freshly built logger, in the
fixed order version, application_name, host, each present only when the
corresponding settings value is non-empty. -/
def getZapFields (config : Config) : List (String × GoVal) :=
  (if config.Version ≠ "" then [("version", GoVal.str config.Version)] else []) ++
  (if config.AppName ≠ "" then [("application_name", GoVal.str config.AppName)] else []) ++
  (if config.Host ≠ "" then [("host", GoVal.str config.Host)] else [])

/-- A logger handle: the severity gate of its core, the configurable encoder
keys, and the structured fields bound to it (base fields plus any fields
attached later via `With`).  Encoder internals (time format, dev-mode
console encoder, error-output sink) do not affect any claim and are not
carried. -/
structure Handle where
  level : Level
  messageKey : String
  levelKey : String
  fields : List (String × GoVal)
deriving DecidableEq

/-- `New(lvl, cfg)`: builds a handle gated at `lvl` (falling back to the
package-level default gate, info, when `lvl` is nil) and attaches
`getZapFields cfg` as base fields. -/
def New (lvl : Option Level) (cfg : Config) : Handle :=
  { level := lvl.getD Level.info
    messageKey := cfg.MessageKey
    levelKey := cfg.LevelKey
    fields := getZapFields cfg }

/-- `l.With(fields...)` / sugared `With`: a new handle with the extra fields
appended after the existing ones. -/
def Handle.withFields (h : Handle) (fs : List (String × GoVal)) : Handle :=
  { h with fields := h.fields ++ fs }

/-- One encoded log record: the assoc list the JSON encoder would emit
(level under the configured level key, message under the configured message
key, then the handle fields, then the per-call fields). -/
structure Record where
  fields : List (String × GoVal)
deriving DecidableEq

/-- zap sugar `sweetenFields` on the loosely-typed kv list, restricted to the
shapes the repository produces: adjacent elements are paired, a dangling
trailing element is dropped, a pair whose key is not a string is dropped.
(zap additionally logs an internal error in those two cases; no claim
depends on that.) -/
def pairKV : List GoVal → List (String × GoVal)
  | [] => []
  | [_] => []
  | k :: v :: rest =>
    match k with
    | .str s => (s, v) :: pairKV rest
    | _ => pairKV rest

/-- A leveled write on a handle: gated by the handle's level; when enabled it
produces the encoded record, otherwise nothing. -/
def Handle.write (h : Handle) (lvl : Level) (message : String) (kvs : List GoVal) :
    Option Record :=
  if levelEnabled h.level lvl then
    some ⟨(h.levelKey, GoVal.str (levelString lvl)) ::
          (h.messageKey, GoVal.str message) :: (h.fields ++ pairKV kvs)⟩
  else none

/-- Sugared `Infow`. -/
def Handle.infow (h : Handle) (message : String) (kvs : List GoVal) : Option Record :=
  h.write Level.info message kvs

/-- The execution context: two independent optional attachments, a logger
handle (under `loggerContextKey`) and a tag list (under
`loggerContextTags`).  This is the value-level view of the context; the
slice-level view needed for aliasing questions is modelled separately
below. -/
structure Ctx where
  logger : Option Handle
  tags : Option (List String)
deriving DecidableEq

/-- `ToContext`: derived context whose resolved logger is `l`; tags are left
untouched. -/
def ToContext (ctx : Ctx) (l : Handle) : Ctx :=
  { ctx with logger := some l }

/-- `ContextWithTags`: appends the argument tags to the ancestor tag list
when one is attached, and attaches the resulting list to the derived
context.  With no ancestor list the variadic argument slice itself is
attached — a call with zero tags attaches a nil `[]string`, whose later
type assertion still succeeds, i.e. an empty list is attached. -/
def ContextWithTags (ctx : Ctx) (tags : List String) : Ctx :=
  let tags := match ctx.tags with
    | some v => v ++ tags
    | none => tags
  { ctx with tags := some tags }

/-- `FromContext`: the context's attached handle if present, otherwise the
global handle `g`. -/
def FromContext (g : Handle) (ctx : Ctx) : Handle :=
  ctx.logger.getD g

/-- The kv-scanning loop of `ContextWithKV`: walks the list two elements at
a time; a dangling trailing element is dropped; a pair whose key fails the
`.(string)` assertion is skipped and a warning message is recorded (the
failed assertion leaves `key` at its zero value `""`, so the message is
always `"invalid KVs key "`); string-keyed pairs become fields in order. -/
def collectKV : List GoVal → List (String × GoVal) × List String
  | [] => ([], [])
  | [_] => ([], [])
  | k :: v :: rest =>
    let (fs, ws) := collectKV rest
    match k with
    | .str s => ((s, v) :: fs, ws)
    | _ => (fs, goSprintf "invalid KVs key %v" [GoVal.str ""] :: ws)

/-- `ContextWithKV`: resolves the context's logger, scans the kv list with
`collectKV`, emits each warning through that same (desugared) logger, and
returns the derived context carrying the field-enriched handle.  (The
source also computes `l.With(result...)` once more and discards it; that
has no observable effect here.)  The second component is the list of
records the warnings produced. -/
def ContextWithKV (g : Handle) (ctx : Ctx) (kvs : List GoVal) : Ctx × List Record :=
  let l := FromContext g ctx
  let (result, warns) := collectKV kvs
  (ToContext ctx (l.withFields result), warns.filterMap (fun w => l.write Level.warn w []))

/-- `InfoKV`: when the context carries a tag list, the pair
`(tagsName, prepareTags tags)` is appended after the caller's kvs; then the
resolved handle's `Infow` is called. -/
def InfoKV (g : Handle) (ctx : Ctx) (message : String) (kvs : List GoVal) : Option Record :=
  let kvs := match ctx.tags with
    | some tags => kvs ++ [GoVal.str tagsName, GoVal.str (prepareTags tags)]
    | none => kvs
  (FromContext g ctx).infow message kvs

/-- `Info`: with a tag list present, composes `InfoKV` on the concatenated
message, passing the rendered tag pair; otherwise a plain `Info` write. -/
def Info (g : Handle) (ctx : Ctx) (args : List GoVal) : Option Record :=
  match ctx.tags with
  | some tags =>
    InfoKV g ctx (goSprint args) [GoVal.str tagsName, GoVal.str (prepareTags tags)]
  | none => (FromContext g ctx).write Level.info (goSprint args) []

/-- `Infof`: with a tag list present, composes `InfoKV` on the formatted
message, passing the rendered tag pair; otherwise a plain `Infof` write. -/
def Infof (g : Handle) (ctx : Ctx) (format : String) (args : List GoVal) : Option Record :=
  match ctx.tags with
  | some tags =>
    InfoKV g ctx (goSprintf format args) [GoVal.str tagsName, GoVal.str (prepareTags tags)]
  | none => (FromContext g ctx).write Level.info (goSprintf format args) []

/-- The global registry: the process-wide `global` pointer, `none` for a nil
pointer (only before `init` runs). -/
abbrev Registry : Type := Option Handle

/-- `SetLogger`: replaces the current global handle. -/
def setLogger (_r : Registry) (l : Handle) : Registry :=
  some l

/-- `Logger()`: the current global handle (read under the reader lock). -/
def currentLogger (r : Registry) : Registry :=
  r

/-- The registry state established by `init()`: `SetLogger(New(level, &defaultCfg))`
with the package default gate at info. -/
def initialRegistry : Registry :=
  setLogger none (New (some Level.info) defaultCfg)

/-- `FromContext` at registry level, tracking nil-ability of the global
pointer: the context's attached handle if present, otherwise whatever the
registry holds. -/
def FromContextO (r : Registry) (ctx : Ctx) : Option Handle :=
  match ctx.logger with
  | some l => some l
  | none => r

/-- ASCII lowercasing of one character (`bytes.ToLower` on the level names
only ever meets ASCII). -/
def charLower (c : Char) : Char :=
  if 'A' ≤ c ∧ c ≤ 'Z' then Char.ofNat (c.toNat + 32) else c

/-- ASCII lowercasing of a token. -/
def strLower (s : String) : String :=
  String.mk (s.data.map charLower)

/-- `zapLevelFromString` / `AtomicLevel.UnmarshalText`: a token is accepted
iff its lowercasing is one of zap's level names (the empty string parses as
info); anything else is an unrecognized-level error. -/
def parseLevel (s : String) : Except String Level :=
  match strLower s with
  | "debug" => .ok .debug
  | "info" => .ok .info
  | "" => .ok .info
  | "warn" => .ok .warn
  | "error" => .ok .error
  | "dpanic" => .ok .dpanic
  | "panic" => .ok .panicLvl
  | "fatal" => .ok .fatal
  | _ => .error (goSprintf "unrecognized level: %s" [GoVal.str s])

/-- `InitLogger(prefix, version)`: the environment load (an external
collaborator) is passed in as its result.  On load failure or severity
parse failure an error is returned and the registry is untouched; on
success the loaded config's version is overridden and a newly built handle
replaces the registry's. -/
def InitLogger (envResult : Except String Config) (version : String) (r : Registry) :
    Registry × Option String :=
  match envResult with
  | .error e => (r, some (goSprintf "cant get log config; err: %s" [GoVal.str e]))
  | .ok cfg0 =>
    let cfg := { cfg0 with Version := version }
    match parseLevel cfg.LogLevel with
    | .error e =>
      (r, some (goSprintf "failed to unmurshal log level: %s; err: %s"
        [GoVal.str cfg.LogLevel, GoVal.str e]))
    | .ok lvl => (setLogger r (New (some lvl) cfg), none)

/-- The callback `WatchAndRebuildLogger` registers for the log-level key:
a non-string notification value or an unparsable severity token is logged
locally (via `safeErrorf`) and dropped, leaving registry and settings
unchanged; a valid token patches the settings' version and swaps a newly
built handle into the registry.  Returns (registry, settings, local error
messages). -/
def onLogLevelChange (newVal : GoVal) (version : String) (cfg : Config) (r : Registry) :
    Registry × Config × List String :=
  match newVal with
  | .str newLogLevel =>
    match parseLevel newLogLevel with
    | .error e =>
      (r, cfg, [goSprintf "Failed to unmarshal log level: %s; err: %s"
        [GoVal.str newLogLevel, GoVal.str e]])
    | .ok lvl =>
      let cfg := { cfg with Version := version }
      (setLogger r (New (some lvl) cfg), cfg, [])
  | v => (r, cfg, [goSprintf "Failed to cast newVal to string, got type %T" [v]])

/-- A zapcore `Core`: either a base core with its own gate and bound fields,
or the repository's `coreWithLevel` wrapper holding an inner core and a
target severity. -/
inductive Core where
  | base (lvl : Level) (fields : List (String × GoVal))
  | withLevel (inner : Core) (lvl : Level)
deriving DecidableEq

/-- `Enabled`: a base core consults its own gate; `coreWithLevel.Enabled`
consults only the wrapper's target severity (`c.level.Enabled(l)`). -/
def Core.enabled : Core → Level → Bool
  | .base lvl _, e => levelEnabled lvl e
  | .withLevel _ lvl, e => levelEnabled lvl e

/-- `With(fields)`: a base core appends the fields;
`coreWithLevel.With` rewraps the field-enriched inner core at the same
target severity. -/
def Core.withFields : Core → List (String × GoVal) → Core
  | .base lvl fs, gs => .base lvl (fs ++ gs)
  | .withLevel inner lvl, gs => .withLevel (inner.withFields gs) lvl

/-- `coreWithLevel.Check`: adds the core to the checked entry iff the
wrapper's own `Enabled` passes (the checked entry is modelled as the list
of cores added to it). -/
def Core.check (c : Core) (entLvl : Level) (ce : List Core) : List Core :=
  if c.enabled entLvl then ce ++ [c] else ce

/-- A Go slice of strings: index of its backing array in the store, and its
length.  The array's physical length is the slice capacity. -/
structure Slice where
  arr : Nat
  len : Nat
deriving DecidableEq

/-- The heap of slice backing arrays. -/
abbrev Store : Type := List (List String)

/-- Overwrite `vals.length` cells of `arr` starting at `start`. -/
def writeRange (arr : List String) (start : Nat) (vals : List String) : List String :=
  arr.take start ++ vals ++ arr.drop (start + vals.length)

/-- Go runtime `growslice` capacity for small slices (fewer than 256
elements, ignoring size-class rounding, which does not change the capacity
for the string slices at hand): double the old capacity unless more is
needed. -/
def growCap (need cap : Nat) : Nat :=
  if 2 * cap < need then need else 2 * cap

/-- `append(s, vals...)` on a string slice: when the backing array has room
past `s.len` the new elements are written in place and the same array is
shared; otherwise a new, larger array is allocated and the contents
copied. -/
def goAppend (st : Store) (s : Slice) (vals : List String) : Store × Slice :=
  let arr := st.getD s.arr []
  let cap := arr.length
  let need := s.len + vals.length
  if need ≤ cap then
    (st.set s.arr (writeRange arr s.len vals), ⟨s.arr, need⟩)
  else
    let newcap := growCap need cap
    (st ++ [arr.take s.len ++ vals ++ List.replicate (newcap - need) ""], ⟨st.length, need⟩)

/-- The elements a slice denotes: the first `len` cells of its array. -/
def readSlice (st : Store) (s : Slice) : List String :=
  (st.getD s.arr []).take s.len

/-- `ContextWithTags` at slice level: `parent` is the tag slice attached to
an ancestor (if any); `args` the variadic tag arguments (a fresh exact-
capacity slice).  With an ancestor list the source executes
`tags = append(v, tags...)` and attaches the result; otherwise the variadic
slice itself is attached. -/
def contextWithTagsS (st : Store) (parent : Option Slice) (args : List String) :
    Store × Slice :=
  match parent with
  | some v => goAppend st v args
  | none => (st ++ [args], ⟨st.length, args.length⟩)

/-- Primitive events on the global registry and its reader/writer lock. -/
inductive LockEvent where
  | rdLock
  | rdUnlock
  | wrLock
  | wrUnlock
  | readGlobal
  | writeGlobal
deriving DecidableEq

/-- A trace is guarded when every read of the global happens while the
reader or writer lock is held and every write while the writer lock is
held; `r`, `w` count currently held locks. -/
def accessesGuarded : List LockEvent → Nat → Nat → Bool
  | [], _, _ => true
  | e :: rest, r, w =>
    match e with
    | .rdLock => accessesGuarded rest (r + 1) w
    | .rdUnlock => accessesGuarded rest (r - 1) w
    | .wrLock => accessesGuarded rest r (w + 1)
    | .wrUnlock => accessesGuarded rest r (w - 1)
    | .readGlobal => decide (0 < r + w) && accessesGuarded rest r w
    | .writeGlobal => decide (0 < w) && accessesGuarded rest r w

/-- `Logger()`: `globalGuard.RLock(); read global; RUnlock()` (the deferred
unlock runs after the read). -/
def loggerEvents : List LockEvent :=
  [.rdLock, .readGlobal, .rdUnlock]

/-- `SetLogger(l)`: `globalGuard.Lock(); write global; Unlock()`. -/
def setLoggerEvents : List LockEvent :=
  [.wrLock, .writeGlobal, .wrUnlock]

/-- `FromContext(ctx)`: the statement `l := global` reads the global
variable directly, before the context lookup, without touching
`globalGuard`. -/
def fromContextEvents : List LockEvent :=
  [.readGlobal]

/-! Helper definitions and lemmas for the claim theorems. -/

/-- Rendering of a tag list as the spec words it: for each tag, in order,
`#`, the tag with its space characters stripped, one trailing space;
concatenated in insertion order.  Stated independently of the builder loop
of `prepareTags`, to be compared with it. -/
def renderTagsSpec (ts : List String) : String :=
  ts.foldr (fun t acc => "#" ++ removeSpaces t ++ " " ++ acc) ""

theorem prepareTags_go (ts : List String) (acc : String) :
    ts.foldl (fun b t => b ++ "#" ++ removeSpaces t ++ " ") acc = acc ++ renderTagsSpec ts := by
  induction ts generalizing acc with
  | nil => simp [renderTagsSpec]
  | cons t ts ih => rw [List.foldl_cons, ih]; simp [renderTagsSpec, String.append_assoc]

/-- Two-at-a-time induction on lists, matching the stride of the kv loops. -/
def pairInduction {α : Type} {motive : List α → Prop} (h0 : motive [])
    (h1 : ∀ a, motive [a]) (h2 : ∀ a b r, motive r → motive (a :: b :: r)) :
    ∀ l, motive l
  | [] => h0
  | [a] => h1 a
  | a :: b :: r => h2 a b r (pairInduction h0 h1 h2 r)

/-- The complete adjacent pairs of a kv list, a dangling trailing element
dropped — the pairing the spec describes. -/
def goPairs : List GoVal → List (GoVal × GoVal)
  | [] => []
  | [_] => []
  | a :: b :: r => (a, b) :: goPairs r

theorem collectKV_fields (kvs : List GoVal) :
    (collectKV kvs).1 = (goPairs kvs).filterMap
      (fun p => match p.1 with | .str s => some (s, p.2) | _ => none) := by
  induction kvs using pairInduction with
  | h0 => rfl
  | h1 a => rfl
  | h2 a b r ih => cases a <;> simp [collectKV, goPairs, ih]

theorem collectKV_warns (kvs : List GoVal) :
    (collectKV kvs).2 = (goPairs kvs).filterMap
      (fun p => match p.1 with | .str _ => none | _ => some "invalid KVs key ") := by
  induction kvs using pairInduction with
  | h0 => rfl
  | h1 a => rfl
  | h2 a b r ih =>
    cases a with
    | str s => simp [collectKV, goPairs, ih]
    | int n =>
      simp [collectKV, goPairs, ih]
      rfl

theorem collectKV_drop_trailing (ps : List GoVal) (x : GoVal) (h : ps.length % 2 = 0) :
    collectKV (ps ++ [x]) = collectKV ps := by
  induction ps using pairInduction with
  | h0 => rfl
  | h1 a => simp at h
  | h2 a b r ih =>
    have hr : r.length % 2 = 0 := by simp only [List.length_cons] at h; omega
    cases a <;> simp [collectKV, ih hr]

/-- `ctx1 := ContextWithTags(root, "a", "b")`: fresh two-element tag slice. -/
def tagScenario1 : Store × Slice := contextWithTagsS [] none ["a", "b"]

/-- `ctx2 := ContextWithTags(ctx1, "c")`: append grows the array to capacity
four, leaving one spare cell. -/
def tagScenario2 : Store × Slice := contextWithTagsS tagScenario1.1 (some tagScenario1.2) ["c"]

/-- `ctxA := ContextWithTags(ctx2, "x")`: append fits in the spare cell and
reuses ctx2's backing array. -/
def tagScenarioA : Store × Slice := contextWithTagsS tagScenario2.1 (some tagScenario2.2) ["x"]

/-- `ctxB := ContextWithTags(ctx2, "y")`: the second sibling's append reuses
the same backing array, overwriting the cell ctxA's slice covers. -/
def tagScenarioB : Store × Slice := contextWithTagsS tagScenarioA.1 (some tagScenario2.2) ["y"]

/-! The claim theorems. -/

/-- C1: refuted as stated — deriving two sibling contexts from one parent is
NOT always independent.  After `ctx1 = +["a","b"]`, `ctx2 = +["c"]` (backing
array at capacity 4, length 3), the sibling derivations `ctxA = +["x"]` and
`ctxB = +["y"]` both append in place into the shared spare cell, so after
deriving ctxB, emitting from ctxA renders `"#a #b #c #y "` — it carries
ctxB's tag, not its own `"x"`.  (The parent's own three-element view is
unchanged, which is why the slip goes unnoticed on linear chains.) -/
theorem contextWithTags_sibling_aliasing :
    prepareTags (readSlice tagScenarioB.1 tagScenarioA.2) = "#a #b #c #y "
    ∧ prepareTags (readSlice tagScenarioB.1 tagScenarioB.2) = "#a #b #c #y "
    ∧ prepareTags (readSlice tagScenarioB.1 tagScenarioA.2) ≠ "#a #b #c #x "
    ∧ readSlice tagScenarioB.1 tagScenario2.2 = ["a", "b", "c"] := by
  refine ⟨rfl, rfl, ?_, rfl⟩
  decide

/-- C2: the tag renderer returns, for the tag list in insertion order, the
concatenation of `#`, the tag with its space characters removed, and exactly
one trailing space per tag; the empty list renders to the empty string. -/
theorem prepareTags_renders_in_order (ts : List String) :
    prepareTags ts = renderTagsSpec ts ∧ prepareTags [] = "" := by
  refine ⟨?_, rfl⟩
  simpa using prepareTags_go ts ""

/-- C3: the severity-gate wrapper reports an entry as eligible iff the entry
level is at or above the wrapper's target, for every wrapped core (so
independently of the wrapped core's own gate); `Check` adds the core exactly
under that condition; and `With` returns a gate wrap of the field-enriched
inner core at the same target.  Concretely, a warn-target wrapper rejects
info and accepts error whatever the inner core is. -/
theorem coreWithLevel_gate (inner : Core) (target e : Level)
    (fs : List (String × GoVal)) (ce : List Core) :
    (Core.withLevel inner target).enabled e = levelEnabled target e
    ∧ (Core.withLevel inner target).check e ce
        = (if levelEnabled target e then ce ++ [Core.withLevel inner target] else ce)
    ∧ (Core.withLevel inner target).withFields fs = Core.withLevel (inner.withFields fs) target
    ∧ (Core.withLevel inner Level.warn).enabled Level.info = false
    ∧ (Core.withLevel inner Level.warn).enabled Level.error = true :=
  ⟨rfl, rfl, rfl, rfl, rfl⟩

/-- C4: on a context carrying a tag list, the key-value form appends exactly
the one pair `(hashtags, rendered tags)` after the caller's kvs before
delegating to the resolved handle's `Infow`; the plain and formatted forms
compose the key-value form on the concatenated / formatted message.
End to end, with the default handle, info-level key-value emission of
"started" with `("port", 8080)` under tags `["release"]` yields the record
with severity info, message started, `port = 8080`,
`hashtags = "#release "`. -/
theorem emission_appends_hashtags (g : Handle) (ctx : Ctx) (ts : List String)
    (message f : String) (kvs args : List GoVal) (h : ctx.tags = some ts) :
    InfoKV g ctx message kvs
      = (FromContext g ctx).infow message
          (kvs ++ [GoVal.str tagsName, GoVal.str (prepareTags ts)])
    ∧ Info g ctx args
      = InfoKV g ctx (goSprint args) [GoVal.str tagsName, GoVal.str (prepareTags ts)]
    ∧ Infof g ctx f args
      = InfoKV g ctx (goSprintf f args) [GoVal.str tagsName, GoVal.str (prepareTags ts)]
    ∧ InfoKV (New (some Level.info) defaultCfg) ⟨none, some ["release"]⟩ "started"
        [GoVal.str "port", GoVal.int 8080]
      = some ⟨[("severity", GoVal.str "info"), ("message", GoVal.str "started"),
               ("version", GoVal.str "0.0.0"), ("application_name", GoVal.str "app"),
               ("host", GoVal.str "localhost"), ("port", GoVal.int 8080),
               ("hashtags", GoVal.str "#release ")]⟩ := by
  refine ⟨?_, ?_, ?_, rfl⟩
  · simp [InfoKV, h]
  · simp [Info, h]
  · simp [Infof, h]

/-- C4 witness: the key-value form at a concrete tagged context. -/
theorem emission_appends_hashtags_checked :
    InfoKV (New (some Level.info) defaultCfg) ⟨none, some ["t"]⟩ "m" [GoVal.int 1]
      = (FromContext (New (some Level.info) defaultCfg) ⟨none, some ["t"]⟩).infow "m"
          ([GoVal.int 1] ++ [GoVal.str tagsName, GoVal.str (prepareTags ["t"])]) :=
  (emission_appends_hashtags (New (some Level.info) defaultCfg) ⟨none, some ["t"]⟩
    ["t"] "m" "f" [GoVal.int 1] [] rfl).1

/-- C5: the field-attaching derivation is total (no error reaches the
caller) and returns the context carrying the resolved handle enriched with
exactly the well-formed pairs: the string-keyed pairs of the list in order;
each non-string-keyed pair is skipped and produces one warning, emitted
through the resolved (desugared) logger; an odd-length list behaves as if
the dangling trailing element were absent. -/
theorem contextWithKV_tolerates_malformed (g : Handle) (ctx : Ctx)
    (kvs ps : List GoVal) (x : GoVal) (h : ps.length % 2 = 0) :
    (ContextWithKV g ctx kvs).1
      = ToContext ctx ((FromContext g ctx).withFields (collectKV kvs).1)
    ∧ (collectKV kvs).1 = (goPairs kvs).filterMap
        (fun p => match p.1 with | .str s => some (s, p.2) | _ => none)
    ∧ (collectKV kvs).2 = (goPairs kvs).filterMap
        (fun p => match p.1 with | .str _ => none | _ => some "invalid KVs key ")
    ∧ (ContextWithKV g ctx kvs).2
      = ((collectKV kvs).2).filterMap (fun w => (FromContext g ctx).write Level.warn w [])
    ∧ collectKV (ps ++ [x]) = collectKV ps := by
  exact ⟨by simp [ContextWithKV], collectKV_fields kvs, collectKV_warns kvs,
    by simp [ContextWithKV], collectKV_drop_trailing ps x h⟩

/-- C5 witness: a mixed list with a non-string key, and an even-length list
extended by a dangling element. -/
theorem contextWithKV_tolerates_malformed_checked :
    ([GoVal.str "k", GoVal.int 0] : List GoVal).length % 2 = 0
    ∧ collectKV ([GoVal.str "k", GoVal.int 0] ++ [GoVal.int 7])
        = collectKV [GoVal.str "k", GoVal.int 0]
    ∧ (collectKV [GoVal.str "a", GoVal.int 1, GoVal.int 5, GoVal.int 2,
        GoVal.str "b", GoVal.str "x", GoVal.int 9]).1
        = [("a", GoVal.int 1), ("b", GoVal.str "x")] :=
  ⟨by decide,
   (contextWithKV_tolerates_malformed (New (some Level.info) defaultCfg) ⟨none, none⟩
      [] [GoVal.str "k", GoVal.int 0] (GoVal.int 7) (by decide)).2.2.2.2,
   by decide⟩

/-- C6: resolution returns the context's attached handle when present and
otherwise exactly what the registry holds — never nil on a populated
registry; after the registry's handle is replaced, a context without its
own handle resolves to the new handle; and `init()` populates the registry
with the default-built handle before any application code runs. -/
theorem fromContext_resolution (r : Registry) (h nh : Handle) (ctx : Ctx)
    (hr : r = some h) :
    FromContextO r ctx = some (ctx.logger.getD h)
    ∧ FromContextO (setLogger r nh) ctx = some (ctx.logger.getD nh)
    ∧ (ctx.logger = none → FromContextO (setLogger r nh) ctx = some nh)
    ∧ initialRegistry = some (New (some Level.info) defaultCfg) := by
  cases hctx : ctx.logger <;>
    simp [FromContextO, setLogger, initialRegistry, hr, hctx]

/-- C6 witness: resolution on an empty context at the initial registry,
before and after a replacement. -/
theorem fromContext_resolution_checked :
    FromContextO initialRegistry ⟨none, none⟩ = some (New (some Level.info) defaultCfg)
    ∧ FromContextO (setLogger initialRegistry (New (some Level.debug) defaultCfg))
        ⟨none, none⟩ = some (New (some Level.debug) defaultCfg) :=
  ⟨(fromContext_resolution initialRegistry (New (some Level.info) defaultCfg)
      (New (some Level.debug) defaultCfg) ⟨none, none⟩ rfl).1,
   (fromContext_resolution initialRegistry (New (some Level.info) defaultCfg)
      (New (some Level.debug) defaultCfg) ⟨none, none⟩ rfl).2.2.1 rfl⟩

/-- C7: an unrecognized severity token makes environment initialization
return an error and leave the registry unchanged (as does a config-load
failure); during live reconfiguration the same parse failure, or a
non-string notification value, only produces a local error log and leaves
registry and settings unchanged; a valid update patches the settings'
version and swaps a newly built handle into the registry. -/
theorem reconfiguration_error_paths (envCfg cfg : Config)
    (version s e msg : String) (r : Registry) (lvl : Level) (v : GoVal) :
    (parseLevel envCfg.LogLevel = .error e →
      InitLogger (.ok envCfg) version r
        = (r, some (goSprintf "failed to unmurshal log level: %s; err: %s"
            [GoVal.str envCfg.LogLevel, GoVal.str e])))
    ∧ InitLogger (.error msg) version r
        = (r, some (goSprintf "cant get log config; err: %s" [GoVal.str msg]))
    ∧ (v.isStr = false →
        (onLogLevelChange v version cfg r).1 = r
        ∧ (onLogLevelChange v version cfg r).2.1 = cfg
        ∧ ((onLogLevelChange v version cfg r).2.2).length = 1)
    ∧ (parseLevel s = .error e →
        onLogLevelChange (.str s) version cfg r
          = (r, cfg, [goSprintf "Failed to unmarshal log level: %s; err: %s"
              [GoVal.str s, GoVal.str e]]))
    ∧ (parseLevel s = .ok lvl →
        onLogLevelChange (.str s) version cfg r
          = (setLogger r (New (some lvl) { cfg with Version := version }),
             { cfg with Version := version }, [])) := by
  refine ⟨fun hbad => ?_, rfl, fun hv => ?_, fun hbad => ?_, fun hok => ?_⟩
  · simp [InitLogger, hbad]
  · cases v with
    | str t => simp [GoVal.isStr] at hv
    | int n => simp [onLogLevelChange]
  · simp [onLogLevelChange, hbad]
  · simp [onLogLevelChange, hok]

/-- C7 witness: the token "junk" is rejected by init with the registry kept,
and a live "debug" update patches the version and swaps in the new
handle. -/
theorem reconfiguration_error_paths_checked :
    (InitLogger (.ok { defaultCfg with LogLevel := "junk" }) "1.0" initialRegistry).1
      = initialRegistry
    ∧ onLogLevelChange (.str "debug") "9.9.9" defaultCfg initialRegistry
      = (setLogger initialRegistry (New (some Level.debug)
          { defaultCfg with Version := "9.9.9" }),
         { defaultCfg with Version := "9.9.9" }, []) :=
  ⟨by rw [(reconfiguration_error_paths { defaultCfg with LogLevel := "junk" } defaultCfg
      "1.0" "debug" "unrecognized level: junk" "m" initialRegistry Level.debug
      (GoVal.int 0)).1 rfl],
   (reconfiguration_error_paths { defaultCfg with LogLevel := "junk" } defaultCfg
      "9.9.9" "debug" "unrecognized level: junk" "m" initialRegistry Level.debug
      (GoVal.int 0)).2.2.2.2 rfl⟩

/-- C8: the factory-built handle carries exactly the base fields version,
application_name, host in that fixed order, each included iff its settings
value is non-empty; version "1.2.3", app "svc", empty host yields version
and application_name and no host field. -/
theorem new_base_fields_fixed_order (cfg : Config) (lvl : Option Level) :
    getZapFields cfg
      = ([("version", cfg.Version), ("application_name", cfg.AppName),
          ("host", cfg.Host)]).filterMap
          (fun p => if p.2 = "" then none else some (p.1, GoVal.str p.2))
    ∧ (New lvl cfg).fields = getZapFields cfg
    ∧ getZapFields { defaultCfg with Version := "1.2.3", AppName := "svc", Host := "" }
      = [("version", GoVal.str "1.2.3"), ("application_name", GoVal.str "svc")] := by
  refine ⟨?_, rfl, by decide⟩
  by_cases h1 : cfg.Version = "" <;> by_cases h2 : cfg.AppName = "" <;>
    by_cases h3 : cfg.Host = "" <;> simp [getZapFields, h1, h2, h3]

/-- C9: refuted as stated — not every access to the global handle is
guarded.  `Logger()` reads under the reader lock and `SetLogger()` writes
under the writer lock, but the resolution path `FromContext` executes
`l := global` with no lock acquisition at all, so the read it performs for
a context with no attached logger is unguarded (a data race with a
concurrent `SetLogger`). -/
theorem fromContext_read_unguarded :
    accessesGuarded loggerEvents 0 0 = true
    ∧ accessesGuarded setLoggerEvents 0 0 = true
    ∧ accessesGuarded fromContextEvents 0 0 = false :=
  ⟨rfl, rfl, rfl⟩

/-- C10: deriving via the tag-appending derivation with zero tags from a
context with no ancestor tag list attaches an empty tag list, so emission
through the derived context takes the tagged path and appends a `hashtags`
field rendering to the empty string, while emission through the original
context appends no `hashtags` field; concretely, the two records differ in
exactly that trailing field. -/
theorem contextWithTags_empty_attaches (g : Handle) (lg : Option Handle)
    (message : String) (kvs : List GoVal) :
    (ContextWithTags ⟨lg, none⟩ []).tags = some []
    ∧ InfoKV g (ContextWithTags ⟨lg, none⟩ []) message kvs
      = (FromContext g ⟨lg, none⟩).infow message
          (kvs ++ [GoVal.str tagsName, GoVal.str ""])
    ∧ InfoKV g ⟨lg, none⟩ message kvs = (FromContext g ⟨lg, none⟩).infow message kvs
    ∧ InfoKV (New (some Level.info) defaultCfg) (ContextWithTags ⟨none, none⟩ []) "m" []
      = some ⟨[("severity", GoVal.str "info"), ("message", GoVal.str "m"),
               ("version", GoVal.str "0.0.0"), ("application_name", GoVal.str "app"),
               ("host", GoVal.str "localhost"), ("hashtags", GoVal.str "")]⟩
    ∧ InfoKV (New (some Level.info) defaultCfg) ⟨none, none⟩ "m" []
      = some ⟨[("severity", GoVal.str "info"), ("message", GoVal.str "m"),
               ("version", GoVal.str "0.0.0"), ("application_name", GoVal.str "app"),
               ("host", GoVal.str "localhost")]⟩ := by
  refine ⟨rfl, ?_, rfl, rfl, rfl⟩
  simp [InfoKV, ContextWithTags, FromContext, prepareTags]

end LogFacade
